import Mathlib

/-!
Verification of the `ManUpService` (src/src/manup.service.ts) of the
`ionic-manup` package: a mandatory/optional update gate for Ionic
applications.

The service is embedded shallowly:

* the `semver` comparison used by `evaluate` is modelled by parsing version
  strings into a `SemVer` record and comparing with semantic-versioning
  precedence (`semver.lt` throws on malformed strings, modelled as an
  `Except` error);
* promises are modelled by their observable settlement behaviour: the
  pipeline inside `validate()` either calls the outer `resolve`, leaves the
  outer promise forever pending (this is what happens in JavaScript when a
  rejection occurs inside the `platform.ready().then(async ...)` callback,
  because that rejection is never routed to the outer executor's
  `resolve`/`reject`), or presents an alert;
* the `@ionic/storage` collaborator is a key-value map from strings to
  strings; `JSON.stringify`/`JSON.parse` are modelled character-precisely
  for the `ManUpData` document shape the service reads and writes.
-/

namespace ManUp

/-! ## Errors thrown by the service and its collaborators -/

/-- JavaScript exceptions that can arise in the service: the `Error` values
thrown by the service itself, the `TypeError` from `semver.lt` on a
malformed version string, and the `SyntaxError` from `JSON.parse` on an
invalid document. -/
inductive JsError where
  /-- `Error('Storage not configured')` thrown by `metadataFromStorage` and
  `saveMetadata`. -/
  | storageNotConfigured
  /-- `Error('metadata does not exist')` thrown by `getPlatformData`. -/
  | metadataDoesNotExist
  /-- `Error('Unknown platform')` thrown by `getPlatformData`. -/
  | unknownPlatform
  /-- the exception `semver.lt` throws when a version string is malformed. -/
  | invalidVersion
  /-- the exception `JSON.parse` throws on input that is not valid JSON. -/
  | jsonParseError
deriving DecidableEq, Repr

/-! ## Semantic versions and the `semver.lt` comparison -/

/-- A parsed semantic version: `major.minor.patch` with an optional
prerelease identifier list (`Sum.inl` = numeric identifier, `Sum.inr` =
alphanumeric identifier).  The build-metadata suffix is ignored by
precedence so it is not recorded. -/
structure SemVer where
  major : Nat
  minor : Nat
  patch : Nat
  pre : List (Sum Nat String)
deriving DecidableEq, Repr

/-- Lexicographic comparison of ASCII character lists by code point, as used
for alphanumeric prerelease identifiers. -/
def preStrLt : List Char → List Char → Bool
  | [], [] => false
  | [], _ :: _ => true
  | _ :: _, [] => false
  | a :: as, b :: bs => if a = b then preStrLt as bs else decide (a.toNat < b.toNat)

/-- Comparison of two distinct prerelease identifiers: numeric identifiers
order numerically and are lower than alphanumeric ones, alphanumeric ones
order as ASCII strings. -/
def preIdLt : Sum Nat String → Sum Nat String → Bool
  | .inl a, .inl b => decide (a < b)
  | .inl _, .inr _ => true
  | .inr _, .inl _ => false
  | .inr a, .inr b => preStrLt a.data b.data

/-- Identifier-wise comparison of two prerelease lists; a strict prefix is
lower. -/
def preLt : List (Sum Nat String) → List (Sum Nat String) → Bool
  | [], [] => false
  | [], _ :: _ => true
  | _ :: _, [] => false
  | a :: as, b :: bs => if a = b then preLt as bs else preIdLt a b

/-- Semantic-versioning precedence: compare `major`, `minor`, `patch`
numerically; on a tie a version with a prerelease list precedes the plain
release, and two prerelease lists compare identifier-wise. -/
def versionLt (x y : SemVer) : Bool :=
  if x.major ≠ y.major then decide (x.major < y.major)
  else if x.minor ≠ y.minor then decide (x.minor < y.minor)
  else if x.patch ≠ y.patch then decide (x.patch < y.patch)
  else
    match x.pre, y.pre with
    | [], [] => false
    | _ :: _, [] => true
    | [], _ :: _ => false
    | a, b => preLt a b

/-- Splits a character list at every occurrence of `sep` (the separator is
dropped). -/
def splitOnChar (sep : Char) : List Char → List (List Char)
  | [] => [[]]
  | c :: cs =>
    let r := splitOnChar sep cs
    if c = sep then [] :: r
    else
      match r with
      | [] => [[c]]
      | h :: t => (c :: h) :: t

/-- Parses a semver numeric identifier: a nonempty digit string without a
leading zero. -/
def parseNumericId (l : List Char) : Option Nat :=
  if l.isEmpty then none
  else if l.all Char.isDigit then
    if 1 < l.length ∧ l.headD ' ' = '0' then none
    else some (l.foldl (fun a c => 10 * a + (c.toNat - 48)) 0)
  else none

/-- Characters allowed in an alphanumeric prerelease identifier. -/
def validIdChar (c : Char) : Bool := c.isAlphanum || c = '-'

/-- Parses one prerelease identifier: numeric when all digits, alphanumeric
otherwise. -/
def parsePreId (l : List Char) : Option (Sum Nat String) :=
  if l.isEmpty then none
  else if l.all Char.isDigit then (parseNumericId l).map Sum.inl
  else if l.all validIdChar then some (Sum.inr (String.mk l))
  else none

/-- Parses a semantic version string: optional leading `v`, dotted
`major.minor.patch` numeric triple, optional `-`-introduced prerelease
identifier list, optional `+`-introduced build metadata (ignored).
Returns `none` on a malformed string, the case in which `semver.lt`
throws. -/
def parseSemver (s : String) : Option SemVer :=
  let l0 :=
    match splitOnChar '+' s.data with
    | [] => []
    | h :: _ => h
  let l := if l0.headD ' ' = 'v' then l0.tail else l0
  let main := l.takeWhile (fun c => c ≠ '-')
  let rest := l.drop main.length
  match splitOnChar '.' main with
  | [a, b, c] =>
    match parseNumericId a, parseNumericId b, parseNumericId c with
    | some major, some minor, some patch =>
      match rest with
      | [] => some ⟨major, minor, patch, []⟩
      | _ :: preChars =>
        match (splitOnChar '.' preChars).mapM parsePreId with
        | some ids => some ⟨major, minor, patch, ids⟩
        | none => none
    | _, _, _ => none
  | _ => none

/-- Model of `semver.lt(a, b)`: parse both strings and compare with semver
precedence; a malformed string makes the call throw. -/
def semverLt (a b : String) : Except JsError Bool :=
  match parseSemver a, parseSemver b with
  | some x, some y => Except.ok (versionLt x y)
  | _, _ => Except.error JsError.invalidVersion

/-! ## The data model of `manup.service.ts` -/

/-- The types of alerts the service may present (`enum AlertType`). -/
inductive AlertType where
  /-- A mandatory update is required. -/
  | MANDATORY
  /-- An optional update is available. -/
  | OPTIONAL
  /-- The app is disabled. -/
  | MAINTENANCE
  /-- Nothing to see here. -/
  | NOP
deriving DecidableEq, Repr

/-- One platform's policy branch (`interface PlatformData`). -/
structure PlatformData where
  minimum : String
  latest : String
  url : String
  enabled : Bool
deriving DecidableEq, Repr

/-- The metadata document (`interface ManUpData`); every platform branch is
optional. -/
structure ManUpData where
  ios : Option PlatformData
  android : Option PlatformData
  windows : Option PlatformData
deriving DecidableEq, Repr

/-- JavaScript property access `platformData.url` performed by the alert
handlers.  At the only call site of `presentAlert` the argument bound to
the `any`-typed `platformData` parameter is the whole `ManUpData`
document, whose shape has no `url` property, so the access yields
`undefined`. -/
def ManUpData.urlField (_ : ManUpData) : Option String := none

/-! ## The decision engine: `ManUpService.evaluate` -/

/-- Model of `ManUpService.evaluate`: if the policy is not enabled the
result is `MAINTENANCE` before the running version is even queried;
otherwise the running version is compared against `minimum` and then
`latest` with `semver.lt`, whose exception propagates. -/
def evaluate (metadata : PlatformData) (version : String) : Except JsError AlertType :=
  if metadata.enabled = false then Except.ok AlertType.MAINTENANCE
  else
    match semverLt version metadata.minimum with
    | Except.error e => Except.error e
    | Except.ok true => Except.ok AlertType.MANDATORY
    | Except.ok false =>
      match semverLt version metadata.latest with
      | Except.error e => Except.error e
      | Except.ok true => Except.ok AlertType.OPTIONAL
      | Except.ok false => Except.ok AlertType.NOP

/-! ## JSON serialization of the metadata document

`saveMetadata` stores `JSON.stringify(metadata)` and `metadataFromStorage`
applies `JSON.parse` to the stored string.  Both are modelled
character-precisely for the `ManUpData` document shape this service reads
and writes: `stringifyManUp` renders exactly the string `JSON.stringify`
produces (member order as declared, string escaping as specified by
ECMA-404/JSON.stringify), and `parseManUpChars` parses that grammar back,
accepting members in any order with later duplicates winning, as
`JSON.parse` does. -/

/-- Lower-case hexadecimal digit, as emitted in `\u00XX` escapes by
`JSON.stringify`. -/
def hexDig (n : Nat) : Char :=
  if n < 10 then Char.ofNat (48 + n) else Char.ofNat (87 + n)

/-- Value of a hexadecimal digit accepted by `JSON.parse` in a `\uXXXX`
escape. -/
def hexVal (c : Char) : Option Nat :=
  if '0' ≤ c ∧ c ≤ '9' then some (c.toNat - 48)
  else if 'a' ≤ c ∧ c ≤ 'f' then some (c.toNat - 87)
  else if 'A' ≤ c ∧ c ≤ 'F' then some (c.toNat - 55)
  else none

/-- String-literal escaping performed by `JSON.stringify` on one character:
quote and backslash get a backslash escape, the five control characters
with short forms get those, the remaining control characters get a
`\u00XX` escape, and every other character is emitted verbatim. -/
def escChar (c : Char) : List Char :=
  if c = '"' then ['\\', '"']
  else if c = '\\' then ['\\', '\\']
  else if c = Char.ofNat 8 then ['\\', 'b']
  else if c = Char.ofNat 9 then ['\\', 't']
  else if c = Char.ofNat 10 then ['\\', 'n']
  else if c = Char.ofNat 12 then ['\\', 'f']
  else if c = Char.ofNat 13 then ['\\', 'r']
  else if c.toNat < 32 then ['\\', 'u', '0', '0', hexDig (c.toNat / 16), hexDig (c.toNat % 16)]
  else [c]

/-- Escapes every character of a string body. -/
def escList : List Char → List Char
  | [] => []
  | c :: cs => escChar c ++ escList cs

/-- Prepends a character to the content component of a string-body parse. -/
def consFst (c : Char) : Option (List Char × List Char) → Option (List Char × List Char)
  | none => none
  | some (r, rest) => some (c :: r, rest)

/-- Parses a JSON string body up to and including the closing quote,
undoing the escapes of `escChar`; returns the content and the remaining
input.  Raw control characters are rejected, as by `JSON.parse`. -/
def parseStrBody : List Char → Option (List Char × List Char)
  | [] => none
  | c :: cs =>
    if c = '"' then some ([], cs)
    else if c = '\\' then
      match cs with
      | [] => none
      | e :: cs2 =>
        if e = '"' then consFst '"' (parseStrBody cs2)
        else if e = '\\' then consFst '\\' (parseStrBody cs2)
        else if e = '/' then consFst '/' (parseStrBody cs2)
        else if e = 'b' then consFst (Char.ofNat 8) (parseStrBody cs2)
        else if e = 't' then consFst (Char.ofNat 9) (parseStrBody cs2)
        else if e = 'n' then consFst (Char.ofNat 10) (parseStrBody cs2)
        else if e = 'f' then consFst (Char.ofNat 12) (parseStrBody cs2)
        else if e = 'r' then consFst (Char.ofNat 13) (parseStrBody cs2)
        else if e = 'u' then
          match cs2 with
          | h1 :: h2 :: h3 :: h4 :: cs3 =>
            match hexVal h1, hexVal h2, hexVal h3, hexVal h4 with
            | some a, some b, some c2, some d =>
              consFst (Char.ofNat (4096 * a + 256 * b + 16 * c2 + d)) (parseStrBody cs3)
            | _, _, _, _ => none
          | _ => none
        else none
    else if c.toNat < 32 then none
    else consFst c (parseStrBody cs)

/-- Consumes an expected literal character sequence from the front of the
input. -/
def stripLit : List Char → List Char → Option (List Char)
  | [], l => some l
  | _ :: _, [] => none
  | p :: ps, c :: cs => if c = p then stripLit ps cs else none

/-- Characters of `JSON.stringify` applied to one `PlatformData` branch:
the four members in declaration order. -/
def stringifyPDChars (pd : PlatformData) : List Char :=
  "\x7b\"minimum\":\"".data ++ escList pd.minimum.data
  ++ "\",\"latest\":\"".data ++ escList pd.latest.data
  ++ "\",\"url\":\"".data ++ escList pd.url.data
  ++ "\",\"enabled\":".data
  ++ (if pd.enabled then "true\x7d".data else "false\x7d".data)

/-- Parses one `PlatformData` object in the canonical member order produced
by `stringifyPDChars`. -/
def parsePD (l : List Char) : Option (PlatformData × List Char) := do
  let l1 ← stripLit "\x7b\"minimum\":\"".data l
  let (mn, l2) ← parseStrBody l1
  let l3 ← stripLit ",\"latest\":\"".data l2
  let (lt, l4) ← parseStrBody l3
  let l5 ← stripLit ",\"url\":\"".data l4
  let (u, l6) ← parseStrBody l5
  let l7 ← stripLit ",\"enabled\":".data l6
  match stripLit "true\x7d".data l7 with
  | some rest => pure (⟨String.mk mn, String.mk lt, String.mk u, true⟩, rest)
  | none => do
    let rest ← stripLit "false\x7d".data l7
    pure (⟨String.mk mn, String.mk lt, String.mk u, false⟩, rest)

/-- Characters of one rendered document member `"key":{...}`. -/
def memberChars (key : String) (pd : PlatformData) : List Char :=
  '"' :: escList key.data ++ '"' :: ':' :: stringifyPDChars pd

/-- Joins rendered members with commas, as inside a JSON object. -/
def joinComma : List (List Char) → List Char
  | [] => []
  | [x] => x
  | x :: xs => x ++ ',' :: joinComma xs

/-- The present members of a document, in the declaration order of
`interface ManUpData`, which is the order `JSON.stringify` emits
(`undefined` members are skipped). -/
def memberList (m : ManUpData) : List (String × PlatformData) :=
  (match m.ios with | some pd => [("ios", pd)] | none => [])
  ++ (match m.android with | some pd => [("android", pd)] | none => [])
  ++ (match m.windows with | some pd => [("windows", pd)] | none => [])

/-- Characters of `JSON.stringify(metadata)` for a `ManUpData` document. -/
def stringifyManUpChars (m : ManUpData) : List Char :=
  '\x7b' :: joinComma ((memberList m).map fun kv => memberChars kv.1 kv.2) ++ ['\x7d']

/-- Model of `JSON.stringify(metadata)` as called by `saveMetadata`. -/
def stringifyManUp (m : ManUpData) : String :=
  String.mk (stringifyManUpChars m)

/-- Parses one `"key":{...}` member. -/
def parseMember (l : List Char) : Option ((String × PlatformData) × List Char) := do
  let l1 ← stripLit "\"".data l
  let (k, l2) ← parseStrBody l1
  let l3 ← stripLit ":".data l2
  let (pd, l4) ← parsePD l3
  pure ((String.mk k, pd), l4)

/-- Parses a nonempty comma-separated member list followed by the closing
brace; `fuel` bounds the number of members. -/
def parseMembersAux : Nat → List Char → Option (List (String × PlatformData) × List Char)
  | 0, _ => none
  | Nat.succ fuel, l => do
    let (kv, l1) ← parseMember l
    match stripLit ",".data l1 with
    | some l2 =>
      match parseMembersAux fuel l2 with
      | some (kvs, rest) => some (kv :: kvs, rest)
      | none => none
    | none => do
      let l3 ← stripLit "\x7d".data l1
      pure ([kv], l3)

/-- Builds the document from the parsed members; only the three platform
keys are significant and a later duplicate overrides an earlier one, as
with `JSON.parse`. -/
def assembleManUp (kvs : List (String × PlatformData)) : ManUpData :=
  kvs.foldl
    (fun acc kv =>
      if kv.1 = "ios" then { acc with ios := some kv.2 }
      else if kv.1 = "android" then { acc with android := some kv.2 }
      else if kv.1 = "windows" then { acc with windows := some kv.2 }
      else acc)
    ⟨none, none, none⟩

/-- Parses a `ManUpData` document object, returning it and the remaining
input. -/
def parseManUpChars (l : List Char) : Option (ManUpData × List Char) := do
  let l1 ← stripLit "\x7b".data l
  match stripLit "\x7d".data l1 with
  | some rest => pure (⟨none, none, none⟩, rest)
  | none =>
    match parseMembersAux (l1.length + 1) l1 with
    | some (kvs, rest) => pure (assembleManUp kvs, rest)
    | none => none

/-- Model of `JSON.parse` applied to a stored metadata string: the whole
input must be one document of the `ManUpData` shape. -/
def parseManUpStr (s : String) : Option ManUpData :=
  match parseManUpChars s.data with
  | some (m, []) => some m
  | _ => none

/-! ## Storage and the `MetadataStore` operations -/

/-- The `@ionic/storage` collaborator modelled as a key-value map;
`storage.get` of an unset key resolves with `null` (`none`). -/
def StoreMap : Type := String → Option String

/-- The namespace constant `STORAGE_KEY` of the source file. -/
def STORAGE_KEY : String := "com.nextfaze.ionic-manup"

/-- The key the service reads and writes: `STORAGE_KEY + '.manup'`. -/
def manupKey : String := STORAGE_KEY ++ ".manup"

/-- `storage.set`: the map updated at one key. -/
def storeSet (st : StoreMap) (k v : String) : StoreMap :=
  fun k2 => if k2 = k then some v else st k2

/-- Model of `ManUpService.saveMetadata`: with a storage collaborator,
stores `JSON.stringify(metadata)` under the namespaced key and returns the
updated store; without one, throws `Error('Storage not configured')`. -/
def saveMetadata (storage : Option StoreMap) (metadata : ManUpData) : Except JsError StoreMap :=
  match storage with
  | some st => Except.ok (storeSet st manupKey (stringifyManUp metadata))
  | none => Except.error JsError.storageNotConfigured

/-- `JSON.parse(data)` applied to the value `storage.get` resolved with.
When the key was never set, `data` is `null` and `JSON.parse(null)`
evaluates to `null` (the argument is coerced to the string `"null"`),
so the call resolves with `null` rather than throwing.  A stored string
that is not a well-formed document makes `JSON.parse` throw. -/
def parseStored : Option String → Except JsError (Option ManUpData)
  | none => Except.ok none
  | some s =>
    if s = "null" then Except.ok none
    else
      match parseManUpStr s with
      | some m => Except.ok (some m)
      | none => Except.error JsError.jsonParseError

/-- Model of `ManUpService.metadataFromStorage`: with a storage
collaborator, resolves with `JSON.parse` of the stored value; without
one, throws `Error('Storage not configured')`. -/
def metadataFromStorage (storage : Option StoreMap) : Except JsError (Option ManUpData) :=
  match storage with
  | some st => parseStored (st manupKey)
  | none => Except.error JsError.storageNotConfigured

/-! ## The environment of one check -/

/-- The three `this.platform.is(...)` queries the service performs. -/
structure PlatformFlags where
  isIos : Bool
  isAndroid : Bool
  isWindows : Bool
deriving DecidableEq, Repr

/-- The external collaborators of one check: the HTTP fetch outcome
(`none` models a network error or a malformed payload, both of which make
the awaited `http.get(...).map(r => r.json()).toPromise()` throw), the
optional storage collaborator, the platform flags, the answers of the
`AppVersion` queries, and the optional translate collaborator
(`instant(key, {app: name})`). -/
structure Env where
  fetchResult : Option ManUpData
  storage : Option StoreMap
  platform : PlatformFlags
  appVersion : String
  appName : String
  translate : Option (String → String → String)

/-- Model of `ManUpService.metadata`: on a successful fetch, the response
is returned and — with a storage collaborator configured — persisted
best-effort (`saveMetadata(response).catch(() => {})`); on a failed fetch
the result is `metadataFromStorage()`.  The second component is the
storage state after the call. -/
def metadata (env : Env) : Except JsError (Option ManUpData) × Option StoreMap :=
  match env.fetchResult with
  | some response =>
    (Except.ok (some response),
      match env.storage with
      | some st =>
        match saveMetadata (some st) response with
        | Except.ok st2 => some st2
        | Except.error _ => some st
      | none => none)
  | none => (metadataFromStorage env.storage, env.storage)

/-- Model of `ManUpService.getPlatformData`: throws
`Error('metadata does not exist')` on an absent document, returns the
branch for the first matching platform flag (the branch itself may be
`undefined`), and throws `Error('Unknown platform')` when no flag
matches. -/
def getPlatformData (platform : PlatformFlags) (metadata : Option ManUpData) :
    Except JsError (Option PlatformData) :=
  match metadata with
  | none => Except.error JsError.metadataDoesNotExist
  | some md =>
    if platform.isIos then Except.ok md.ios
    else if platform.isAndroid then Except.ok md.android
    else if platform.isWindows then Except.ok md.windows
    else Except.error JsError.unknownPlatform

/-! ## Alerts and the presentation methods -/

/-- What one alert-button handler does when pressed: whether it calls the
enclosing presentation promise's `resolve`, which `iab.create(url,
target)` call it makes (the url argument may be `undefined`), and whether
it returns `false`, which keeps the alert open. -/
structure HandlerEffect where
  callsResolve : Bool
  iabCall : Option (Option String × String)
  returnsFalse : Bool
deriving DecidableEq, Repr

/-- One button of an alert. -/
structure AlertButton where
  text : String
  effect : HandlerEffect
deriving DecidableEq, Repr

/-- The alert configuration passed to `alert.create` together with the
handler behaviour of each button. -/
structure AlertSpec where
  enableBackdropDismiss : Bool
  title : String
  subTitle : String
  buttons : List AlertButton
deriving DecidableEq, Repr

/-- The text the service uses for a given translation key: the translate
collaborator's `instant(key, {app: name})` when configured, the builtin
English default otherwise. -/
def instantOr (tr : Option (String → String → String)) (key name dflt : String) : String :=
  match tr with
  | some t => t key name
  | none => dflt

/-- Model of `ManUpService.presentMaintenanceMode`: a non-dismissable alert
with no buttons; the enclosing promise's `resolve` is never invoked. -/
def presentMaintenanceMode (tr : Option (String → String → String)) (name : String) : AlertSpec :=
  { enableBackdropDismiss := false
    title := instantOr tr "manup.maintenance.title" name (name ++ " Unavailable")
    subTitle := instantOr tr "manup.maintenance.text" name
      (name ++ " is currently unavailable. Please check back later")
    buttons := [] }

/-- Model of `ManUpService.presentMandatoryUpdate`: a non-dismissable alert
whose single Update button launches `iab.create(platformData.url,
'_system')` and returns `false`; no handler invokes `resolve`. -/
def presentMandatoryUpdate (tr : Option (String → String → String)) (name : String)
    (platformData : ManUpData) : AlertSpec :=
  { enableBackdropDismiss := false
    title := instantOr tr "manup.mandatory.title" name "Update Required"
    subTitle := instantOr tr "manup.mandatory.text" name
      ("An update to " ++ name ++ " is required to continue.")
    buttons :=
      [{ text := instantOr tr "manup.buttons.update" name "Update"
         effect :=
           { callsResolve := false
             iabCall := some (platformData.urlField, "_system")
             returnsFalse := true } }] }

/-- Model of `ManUpService.presentOptionalUpdate`: a non-dismissable alert
whose Not Now button invokes the presentation promise's `resolve` and
whose Update button launches `iab.create(platformData.url, '_system')` and
returns `false`, keeping the alert open. -/
def presentOptionalUpdate (tr : Option (String → String → String)) (name : String)
    (platformData : ManUpData) : AlertSpec :=
  { enableBackdropDismiss := false
    title := instantOr tr "manup.optional.title" name "Update Available"
    subTitle := instantOr tr "manup.optional.text" name
      ("An update to " ++ name ++ " is available. Would you like to update?")
    buttons :=
      [{ text := instantOr tr "manup.buttons.later" name "Not Now"
         effect := { callsResolve := true, iabCall := none, returnsFalse := false } },
       { text := instantOr tr "manup.buttons.update" name "Update"
         effect :=
           { callsResolve := false
             iabCall := some (platformData.urlField, "_system")
             returnsFalse := true } }] }

/-- Model of `ManUpService.presentAlert`.  Its `any`-typed `platformData`
parameter is bound, at the only call site, to the whole metadata
document.  The `switch` has no `NOP` case, in which the method returns
`undefined` (`none`). -/
def presentAlert (t : AlertType) (tr : Option (String → String → String)) (name : String)
    (platformData : ManUpData) : Option AlertSpec :=
  match t with
  | AlertType.MANDATORY => some (presentMandatoryUpdate tr name platformData)
  | AlertType.OPTIONAL => some (presentOptionalUpdate tr name platformData)
  | AlertType.MAINTENANCE => some (presentMaintenanceMode tr name)
  | AlertType.NOP => none

/-- Whether pressing button `i` of an alert invokes the presentation
promise's `resolve`. -/
def pressResolvesPresentation (a : AlertSpec) (i : Nat) : Bool :=
  match a.buttons.get? i with
  | some b => b.effect.callsResolve
  | none => false

/-- An alert whose presentation promise can never be resolved: backdrop
dismissal is disabled and no button handler calls `resolve`. -/
def alertNeverResolves (a : AlertSpec) : Bool :=
  !a.enableBackdropDismiss && a.buttons.all fun b => !b.effect.callsResolve

/-! ## The `validate()` pipeline -/

/-- Observable settlement behaviour of the promise `validate()` creates.
The executor body is `this.platform.ready().then(async () => {...})`;
inside the async callback, only the absent-metadata branch and the `NOP`
branch call the executor's `resolve`.  An exception thrown (or a rejected
promise awaited) inside the callback rejects only the unobserved promise
returned by `.then`, so the outer promise is left forever pending.  In the
non-`NOP` classification branch the callback returns
`this.presentAlert(result, metadata)`; that return value is discarded by
the promise machinery, so the outer promise is again never resolved,
whatever the user does with the alert. -/
inductive PipelineResult where
  /-- the executor's `resolve()` was called: the promise resolves. -/
  | resolvedNow
  /-- the executor's `resolve` can never be called: the promise is forever
  pending. -/
  | foreverPending
  /-- an alert was presented; the executor's `resolve` is not invoked by
  any of its handlers, so the outer promise is also forever pending. -/
  | alertShown (a : AlertSpec)
deriving DecidableEq, Repr

/-- Whether the promise created by `validate()` ever settles. -/
def outerPromiseSettles : PipelineResult → Bool
  | PipelineResult.resolvedNow => true
  | PipelineResult.foreverPending => false
  | PipelineResult.alertShown _ => false

/-- The pipeline `validate()` runs once: await readiness, acquire
metadata, select the platform branch, classify, then resolve or present.
Error cases (`metadata()` rejecting, `getPlatformData` throwing, the
`TypeError` from `evaluate(undefined)` when the platform branch is absent,
`semver.lt` throwing) all occur inside the `.then(async ...)` callback and
leave the outer promise forever pending. -/
def runPipeline (env : Env) : PipelineResult :=
  match (metadata env).1 with
  | Except.error _ => PipelineResult.foreverPending
  | Except.ok none => PipelineResult.resolvedNow
  | Except.ok (some md) =>
    match getPlatformData env.platform (some md) with
    | Except.error _ => PipelineResult.foreverPending
    | Except.ok none => PipelineResult.foreverPending
    | Except.ok (some pd) =>
      match evaluate pd env.appVersion with
      | Except.error _ => PipelineResult.foreverPending
      | Except.ok AlertType.NOP => PipelineResult.resolvedNow
      | Except.ok t =>
        match presentAlert t env.translate env.appName md with
        | some a => PipelineResult.alertShown a
        | none => PipelineResult.foreverPending

/-- The mutable fields of the service relevant to coordination: the
`inProgress` flag and the `currentPromise` reference. -/
structure ServiceState where
  inProgress : Bool
  currentPromise : Option PipelineResult
deriving DecidableEq, Repr

/-- The state at construction: `inProgress` is initialised to `false` and
`currentPromise` is unassigned. -/
def initialState : ServiceState := ⟨false, none⟩

/-- Result of one call to `validate()`: the service state after the call,
the promise the call returned, and whether this call started the
pipeline. -/
structure ValidateCall where
  state : ServiceState
  returned : Option PipelineResult
  ranPipeline : Bool
deriving DecidableEq, Repr

/-- Model of `ManUpService.validate`: when `inProgress` is unset, set it
(it is never reset), run the pipeline once and store its promise in
`currentPromise`; in every case return `currentPromise`. -/
def validate (s : ServiceState) (env : Env) : ValidateCall :=
  if s.inProgress = false then
    let p := runPipeline env
    ⟨⟨true, some p⟩, some p, true⟩
  else ⟨s, s.currentPromise, false⟩

/-- A sequence of further `validate()` calls, each from the state the
previous call left behind. -/
def runCalls : ServiceState → List Env → List ValidateCall
  | _, [] => []
  | s, e :: es =>
    let c := validate s e
    c :: runCalls c.state es

/-! ## Concrete fixtures used by the scenario and witness theorems -/

/-- A policy with both thresholds and an update url, enabled. -/
def pdFix : PlatformData := ⟨"1.0.0", "2.0.0", "https://example.com/app", true⟩

/-- A document shipping only an iOS branch. -/
def mdFix : ManUpData := ⟨some pdFix, none, none⟩

/-- A document whose iOS branch is disabled. -/
def mdDisabled : ManUpData := ⟨some ⟨"1.0.0", "2.0.0", "https://example.com/app", false⟩, none, none⟩

/-- Platform flags of an iOS device. -/
def iosFlags : PlatformFlags := ⟨true, false, false⟩

/-- Platform flags of an Android device. -/
def androidFlags : PlatformFlags := ⟨false, true, false⟩

/-- A storage collaborator under which nothing has ever been persisted. -/
def emptyStore : StoreMap := fun _ => none

/-- The C2 failing input: the remote fetch fails and no storage
collaborator is configured. -/
def envFetchFailNoCache : Env := ⟨none, none, iosFlags, "1.0.0", "App", none⟩

/-- Environment of a run classified `OPTIONAL`: version `1.5.0` between
the thresholds `1.0.0` and `2.0.0`. -/
def envOptional : Env := ⟨some mdFix, none, iosFlags, "1.5.0", "App", none⟩

/-- The optional-update alert that run presents. -/
def optionalAlert : AlertSpec := presentOptionalUpdate none "App" mdFix

/-- Environment of a run classified `MANDATORY`: version `0.5.0` below the
minimum threshold `1.0.0`. -/
def envMandatory : Env := ⟨some mdFix, none, iosFlags, "0.5.0", "App", none⟩

/-- The mandatory-update alert that run presents; `presentAlert` is called
with the whole metadata document. -/
def mandatoryAlert : AlertSpec := presentMandatoryUpdate none "App" mdFix

/-- Environment of a disabled run. -/
def envDisabled : Env := ⟨some mdDisabled, none, iosFlags, "9.9.9", "App", none⟩

/-- A concrete document whose strings exercise quote, backslash, control
character and non-ASCII escaping. -/
def mRound : ManUpData :=
  ⟨some ⟨"1.0.0", "2.0.0", "https://example.com/a?b=\"c\\d\"\n\tπ", true⟩,
   none,
   some ⟨"0.1.0", "0.2.0", "u", false⟩⟩

/-- A concrete document for the cached-fallback witness. -/
def mCache : ManUpData :=
  ⟨none, some ⟨"3.0.0", "4.0.0", "market://details?id=app", true⟩, none⟩

/-! ## Helper lemmas on version comparison -/

theorem preStrLt_self (l : List Char) : preStrLt l l = false := by
  induction l with
  | nil => rfl
  | cons c cs ih => simp [preStrLt, ih]

theorem preLt_self (l : List (Sum Nat String)) : preLt l l = false := by
  induction l with
  | nil => rfl
  | cons a as ih => simp [preLt, ih]

theorem versionLt_self (x : SemVer) : versionLt x x = false := by
  unfold versionLt
  simp only [ne_eq, not_true, if_neg, ite_self, reduceIte]
  cases x.pre with
  | nil => rfl
  | cons a as => simp [preLt_self]

theorem semverLt_of_parse_eq (v m : String) (x : SemVer)
    (hv : parseSemver v = some x) (hm : parseSemver m = some x) :
    semverLt v m = Except.ok false := by
  simp [semverLt, hv, hm, versionLt_self]

/-! ## C1: the four-step classification of `evaluate` -/

/-- C1: `evaluate` implements the four-step algorithm: a disabled policy
yields `MAINTENANCE` for every running version string — the version
comparison is skipped entirely; otherwise a running version strictly below
`minimum` yields `MANDATORY`, else strictly below `latest` yields
`OPTIONAL`, else `NOP`; and a version whose parse equals a threshold's
parse is never "less than" that threshold. -/
theorem evaluate_four_step_classification :
    (∀ (pd : PlatformData) (v : String), pd.enabled = false →
        evaluate pd v = Except.ok AlertType.MAINTENANCE)
  ∧ (∀ (pd : PlatformData) (v : String), pd.enabled = true →
        semverLt v pd.minimum = Except.ok true →
        evaluate pd v = Except.ok AlertType.MANDATORY)
  ∧ (∀ (pd : PlatformData) (v : String), pd.enabled = true →
        semverLt v pd.minimum = Except.ok false →
        semverLt v pd.latest = Except.ok true →
        evaluate pd v = Except.ok AlertType.OPTIONAL)
  ∧ (∀ (pd : PlatformData) (v : String), pd.enabled = true →
        semverLt v pd.minimum = Except.ok false →
        semverLt v pd.latest = Except.ok false →
        evaluate pd v = Except.ok AlertType.NOP)
  ∧ (∀ (v m : String) (x : SemVer), parseSemver v = some x → parseSemver m = some x →
        semverLt v m = Except.ok false) := by
  refine ⟨?_, ?_, ?_, ?_, ?_⟩
  · intro pd v h
    simp [evaluate, h]
  · intro pd v he hmin
    simp [evaluate, he, hmin]
  · intro pd v he hmin hlat
    simp [evaluate, he, hmin, hlat]
  · intro pd v he hmin hlat
    simp [evaluate, he, hmin, hlat]
  · exact semverLt_of_parse_eq

/-- Witness for C1 at concrete inputs, including the §8 vectors of the
spec: version `2.0.0` equal to the minimum threshold is `OPTIONAL`, not
`MANDATORY`, and `3.0.0` equal to the latest threshold is `NOP`. -/
theorem evaluate_four_step_classification_witness :
    evaluate ⟨"2.0.0", "3.0.0", "url", false⟩ "0.0.1" = Except.ok AlertType.MAINTENANCE
  ∧ evaluate ⟨"2.0.0", "3.0.0", "url", true⟩ "1.9.9" = Except.ok AlertType.MANDATORY
  ∧ evaluate ⟨"2.0.0", "3.0.0", "url", true⟩ "2.0.0" = Except.ok AlertType.OPTIONAL
  ∧ evaluate ⟨"2.0.0", "3.0.0", "url", true⟩ "3.0.0" = Except.ok AlertType.NOP
  ∧ semverLt "2.0.0" "2.0.0" = Except.ok false :=
  ⟨evaluate_four_step_classification.1 ⟨"2.0.0", "3.0.0", "url", false⟩ "0.0.1" rfl,
   evaluate_four_step_classification.2.1 ⟨"2.0.0", "3.0.0", "url", true⟩ "1.9.9" rfl (by rfl),
   evaluate_four_step_classification.2.2.1 ⟨"2.0.0", "3.0.0", "url", true⟩ "2.0.0" rfl
     (by rfl) (by rfl),
   evaluate_four_step_classification.2.2.2.1 ⟨"2.0.0", "3.0.0", "url", true⟩ "3.0.0" rfl
     (by rfl) (by rfl),
   evaluate_four_step_classification.2.2.2.2 "2.0.0" "2.0.0" ⟨2, 0, 0, []⟩ (by rfl) (by rfl)⟩

/-! ## C3: single-flight forever -/

theorem validate_when_inProgress (s : ServiceState) (e : Env) (h : s.inProgress = true) :
    validate s e = ⟨s, s.currentPromise, false⟩ := by
  simp [validate, h]

theorem runCalls_inProgress (envs : List Env) (s : ServiceState) (h : s.inProgress = true) :
    ∀ c ∈ runCalls s envs, c.returned = s.currentPromise ∧ c.ranPipeline = false := by
  induction envs generalizing s with
  | nil => intro c hc; simp [runCalls] at hc
  | cons e es ih =>
    intro c hc
    rw [runCalls] at hc
    rw [validate_when_inProgress s e h] at hc
    rcases List.mem_cons.mp hc with hc2 | hc2
    · subst hc2; exact ⟨rfl, rfl⟩
    · exact ih s h c hc2

/-- C3: the first call to `validate()` runs the pipeline, sets the
`inProgress` flag and stores the shared promise; the flag is `true` after
every call (it is never reset); and every subsequent call, from any
sequence of environments, returns the same stored promise without running
the pipeline. -/
theorem validate_single_flight_forever (env : Env) (envs : List Env) :
    (validate initialState env).ranPipeline = true
  ∧ (validate initialState env).state.inProgress = true
  ∧ (validate initialState env).returned = some (runPipeline env)
  ∧ (∀ (s : ServiceState) (e : Env), (validate s e).state.inProgress = true)
  ∧ (∀ c ∈ runCalls (validate initialState env).state envs,
        c.returned = (validate initialState env).returned ∧ c.ranPipeline = false) := by
  refine ⟨rfl, rfl, rfl, ?_, ?_⟩
  · intro s e
    by_cases h : s.inProgress = true
    · rw [validate_when_inProgress s e h]; exact h
    · simp only [Bool.not_eq_true] at h
      simp [validate, h]
  · intro c hc
    have := runCalls_inProgress envs (validate initialState env).state rfl c hc
    exact ⟨this.1, this.2⟩

/-- Witness for C3: with a concrete first environment and a different
concrete second environment, the second call returns the first call's
promise and does not run the pipeline. -/
theorem validate_single_flight_forever_witness :
    (validate initialState ⟨none, none, ⟨true, false, false⟩, "1.0.0", "App", none⟩).ranPipeline
        = true
  ∧ ((validate
        (validate initialState ⟨none, none, ⟨true, false, false⟩, "1.0.0", "App", none⟩).state
        ⟨none, none, ⟨false, true, false⟩, "2.0.0", "Other", none⟩).returned
      = (validate initialState ⟨none, none, ⟨true, false, false⟩, "1.0.0", "App", none⟩).returned
    ∧ (validate
        (validate initialState ⟨none, none, ⟨true, false, false⟩, "1.0.0", "App", none⟩).state
        ⟨none, none, ⟨false, true, false⟩, "2.0.0", "Other", none⟩).ranPipeline = false) :=
  ⟨(validate_single_flight_forever ⟨none, none, ⟨true, false, false⟩, "1.0.0", "App", none⟩
      [⟨none, none, ⟨false, true, false⟩, "2.0.0", "Other", none⟩]).1,
   (validate_single_flight_forever ⟨none, none, ⟨true, false, false⟩, "1.0.0", "App", none⟩
      [⟨none, none, ⟨false, true, false⟩, "2.0.0", "Other", none⟩]).2.2.2.2 _
      (List.mem_singleton.mpr rfl)⟩

/-! ## C2: the fail-open claim fails when the fetch fails without a cache -/

/-- C2 (code bug): on a failed fetch with no cache collaborator,
`metadata()` rejects (`metadataFromStorage` throws inside its `catch`),
the rejection inside the `platform.ready().then(async ...)` callback never
reaches the outer executor's `resolve`, and the promise returned by
`validate()` is left forever pending instead of resolving as "allowed to
proceed". -/
theorem validate_hangs_on_fetch_failure_without_cache :
    metadataFromStorage none = Except.error JsError.storageNotConfigured
  ∧ (metadata envFetchFailNoCache).1 = Except.error JsError.storageNotConfigured
  ∧ runPipeline envFetchFailNoCache = PipelineResult.foreverPending
  ∧ outerPromiseSettles (runPipeline envFetchFailNoCache) = false
  ∧ (validate initialState envFetchFailNoCache).returned = some PipelineResult.foreverPending :=
  ⟨rfl, rfl, rfl, rfl, rfl⟩

/-! ## C4: a recognized platform with an absent entry is returned silently -/

/-- C4 counterexample: on Android with `metadata.android` absent (and
`metadata.ios` present), `getPlatformData` does not fail with an
`UnsupportedPlatform` error — it succeeds, returning the absent branch. -/
theorem getPlatformData_silently_returns_absent_branch :
    getPlatformData androidFlags (some mdFix) = Except.ok none
  ∧ (getPlatformData androidFlags (some mdFix)).isOk = true := ⟨rfl, rfl⟩

/-- C4 amended: `getPlatformData` throws `Error('metadata does not
exist')` when the document is absent and `Error('Unknown platform')` only
when no platform flag matches; for a recognized platform it returns that
platform's branch as-is — in particular the absent branch (`undefined`)
when the document has no entry for it, with no error raised. -/
theorem getPlatformData_amended :
    (∀ p : PlatformFlags, getPlatformData p none = Except.error JsError.metadataDoesNotExist)
  ∧ (∀ md : ManUpData,
        getPlatformData ⟨false, false, false⟩ (some md) = Except.error JsError.unknownPlatform)
  ∧ (∀ md : ManUpData, md.android = none →
        getPlatformData androidFlags (some md) = Except.ok none)
  ∧ (∀ md : ManUpData, getPlatformData iosFlags (some md) = Except.ok md.ios) := by
  refine ⟨fun p => rfl, fun md => rfl, ?_, fun md => rfl⟩
  intro md h
  simp [getPlatformData, androidFlags, h]

/-- Witness for the amended C4 at concrete inputs. -/
theorem getPlatformData_amended_witness :
    getPlatformData ⟨false, false, false⟩ (some mdFix) = Except.error JsError.unknownPlatform
  ∧ getPlatformData androidFlags (some mdFix) = Except.ok none :=
  ⟨getPlatformData_amended.2.1 mdFix, getPlatformData_amended.2.2.1 mdFix rfl⟩

/-! ## C9: an empty cache resolves with null instead of failing -/

/-- C9 counterexample: with a storage collaborator configured but nothing
persisted, `metadataFromStorage` succeeds — `storage.get` resolves `null`
and `JSON.parse(null)` evaluates to `null` — rather than failing with a
`NoCachedData` error. -/
theorem metadataFromStorage_empty_cache_resolves_null :
    metadataFromStorage (some emptyStore) = Except.ok none
  ∧ (metadataFromStorage (some emptyStore)).isOk = true := ⟨rfl, rfl⟩

/-- C9 amended: with a cache collaborator configured but nothing persisted
under the namespaced key, `metadataFromStorage` resolves with `null` (no
document) rather than failing; with no cache collaborator it throws
`Error('Storage not configured')`. -/
theorem metadataFromStorage_amended :
    (∀ st : StoreMap, st manupKey = none → metadataFromStorage (some st) = Except.ok none)
  ∧ metadataFromStorage none = Except.error JsError.storageNotConfigured := by
  refine ⟨?_, rfl⟩
  intro st h
  simp [metadataFromStorage, h, parseStored]

/-- Witness for the amended C9 at the empty store. -/
theorem metadataFromStorage_amended_witness :
    metadataFromStorage (some emptyStore) = Except.ok none :=
  metadataFromStorage_amended.1 emptyStore rfl

/-! ## C6: the optional-update alert does not resolve `validate()` -/

/-- C6 (code bug): in a run classified `OPTIONAL`, the presentation's "Not
Now" button does invoke the presentation promise's `resolve`, but the
promise returned by `validate()` is not wired to it — the non-`NOP`
branch of the executor callback returns `presentAlert`'s promise instead
of calling the outer `resolve` — so `validate()`'s promise never settles
even when the user dismisses the alert with "Not Now". -/
theorem validate_not_resolved_by_optional_not_now :
    evaluate pdFix "1.5.0" = Except.ok AlertType.OPTIONAL
  ∧ runPipeline envOptional = PipelineResult.alertShown optionalAlert
  ∧ pressResolvesPresentation optionalAlert 0 = true
  ∧ (optionalAlert.buttons.map fun b => b.text) = ["Not Now", "Update"]
  ∧ outerPromiseSettles (runPipeline envOptional) = false :=
  ⟨rfl, rfl, rfl, rfl, rfl⟩

/-! ## C7: the presentation receives the whole document, not the policy -/

/-- C7 (code bug): `validate()` calls `presentAlert(result, metadata)`
with the entire metadata document rather than the selected platform
policy, so the Update button's `iab.create(platformData.url, '_system')`
receives `undefined` — not the policy's `updateUrl`
`https://example.com/app` — and the presentation's promise is not adopted
as `validate()`'s result: the outer promise never settles. -/
theorem presentation_gets_document_not_policy :
    evaluate pdFix "0.5.0" = Except.ok AlertType.MANDATORY
  ∧ runPipeline envMandatory
      = PipelineResult.alertShown (presentMandatoryUpdate none "App" mdFix)
  ∧ (mandatoryAlert.buttons.map fun b => b.effect.iabCall)
      = [some ((none : Option String), "_system")]
  ∧ pdFix.url = "https://example.com/app"
  ∧ (some ((none : Option String), "_system")
      ≠ some ((some pdFix.url : Option String), "_system"))
  ∧ outerPromiseSettles (runPipeline envMandatory) = false := by
  refine ⟨rfl, rfl, rfl, rfl, ?_, rfl⟩
  simp

/-! ## C8: mandatory and maintenance presentations never settle -/

/-- C8: for a run whose classification is `MAINTENANCE` (disabled) or
`MANDATORY`, the pipeline presents the corresponding alert; that alert
cannot be backdrop-dismissed, none of its button handlers invokes the
presentation promise's `resolve`, its Update handler (when present)
returns `false` keeping the alert open, and the promise returned by
`validate()` never settles. -/
theorem blocking_presentations_never_settle (env : Env) (md : ManUpData) (pd : PlatformData)
    (hf : env.fetchResult = some md)
    (hp : getPlatformData env.platform (some md) = Except.ok (some pd)) :
    (evaluate pd env.appVersion = Except.ok AlertType.MAINTENANCE →
        runPipeline env
          = PipelineResult.alertShown (presentMaintenanceMode env.translate env.appName)
      ∧ alertNeverResolves (presentMaintenanceMode env.translate env.appName) = true
      ∧ outerPromiseSettles (runPipeline env) = false)
  ∧ (evaluate pd env.appVersion = Except.ok AlertType.MANDATORY →
        runPipeline env
          = PipelineResult.alertShown (presentMandatoryUpdate env.translate env.appName md)
      ∧ alertNeverResolves (presentMandatoryUpdate env.translate env.appName md) = true
      ∧ ((presentMandatoryUpdate env.translate env.appName md).buttons.all
            fun b => b.effect.returnsFalse) = true
      ∧ outerPromiseSettles (runPipeline env) = false) := by
  have hpipe : ∀ t, evaluate pd env.appVersion = Except.ok t →
      runPipeline env =
        match t with
        | AlertType.NOP => PipelineResult.resolvedNow
        | t2 =>
          match presentAlert t2 env.translate env.appName md with
          | some a => PipelineResult.alertShown a
          | none => PipelineResult.foreverPending := by
    intro t he
    unfold runPipeline
    simp only [metadata, hf]
    simp only [hp, he]
    cases t <;> rfl
  constructor
  · intro he
    have h1 := hpipe AlertType.MAINTENANCE he
    simp only [presentAlert] at h1
    refine ⟨h1, ?_, ?_⟩
    · simp [alertNeverResolves, presentMaintenanceMode]
    · rw [h1]; rfl
  · intro he
    have h1 := hpipe AlertType.MANDATORY he
    simp only [presentAlert] at h1
    refine ⟨h1, ?_, ?_, ?_⟩
    · simp [alertNeverResolves, presentMandatoryUpdate]
    · simp [presentMandatoryUpdate]
    · rw [h1]; rfl

/-- Witness for C8 at concrete inputs: a disabled policy presents the
maintenance alert and a below-minimum version presents the mandatory
alert; both runs leave `validate()`'s promise unsettled. -/
theorem blocking_presentations_never_settle_witness :
    (runPipeline envDisabled = PipelineResult.alertShown (presentMaintenanceMode none "App")
      ∧ alertNeverResolves (presentMaintenanceMode none "App") = true
      ∧ outerPromiseSettles (runPipeline envDisabled) = false)
  ∧ (runPipeline envMandatory
      = PipelineResult.alertShown (presentMandatoryUpdate none "App" mdFix)
      ∧ alertNeverResolves (presentMandatoryUpdate none "App" mdFix) = true
      ∧ ((presentMandatoryUpdate none "App" mdFix).buttons.all
            fun b => b.effect.returnsFalse) = true
      ∧ outerPromiseSettles (runPipeline envMandatory) = false) :=
  ⟨(blocking_presentations_never_settle envDisabled mdDisabled
      ⟨"1.0.0", "2.0.0", "https://example.com/app", false⟩ rfl rfl).1 rfl,
   (blocking_presentations_never_settle envMandatory mdFix pdFix rfl rfl).2 rfl⟩

/-! ## Round-trip of the JSON serialization (helpers for C5 and C10) -/

theorem mk_data (s : String) : String.mk s.data = s := by
  cases s
  rfl

theorem hexVal_hexDig (n : Nat) (h : n < 16) : hexVal (hexDig n) = some n := by
  interval_cases n <;> decide

theorem stripLit_append (p l : List Char) : stripLit p (p ++ l) = some l := by
  induction p with
  | nil => rfl
  | cons c cs ih => simp [stripLit, ih]

theorem consFst_some (c : Char) (r rest : List Char) :
    consFst c (some (r, rest)) = some (c :: r, rest) := rfl

theorem psb_close (t : List Char) : parseStrBody ('"' :: t) = some ([], t) := by
  rw [parseStrBody.eq_def]; simp

theorem psb_quote (t : List Char) :
    parseStrBody ('\\' :: '"' :: t) = consFst '"' (parseStrBody t) := by
  rw [parseStrBody.eq_def]; simp

theorem psb_bs (t : List Char) :
    parseStrBody ('\\' :: '\\' :: t) = consFst '\\' (parseStrBody t) := by
  rw [parseStrBody.eq_def]; simp

theorem psb_b (t : List Char) :
    parseStrBody ('\\' :: 'b' :: t) = consFst (Char.ofNat 8) (parseStrBody t) := by
  rw [parseStrBody.eq_def]; simp

theorem psb_t (t : List Char) :
    parseStrBody ('\\' :: 't' :: t) = consFst (Char.ofNat 9) (parseStrBody t) := by
  rw [parseStrBody.eq_def]; simp

theorem psb_n (t : List Char) :
    parseStrBody ('\\' :: 'n' :: t) = consFst (Char.ofNat 10) (parseStrBody t) := by
  rw [parseStrBody.eq_def]; simp

theorem psb_f (t : List Char) :
    parseStrBody ('\\' :: 'f' :: t) = consFst (Char.ofNat 12) (parseStrBody t) := by
  rw [parseStrBody.eq_def]; simp

theorem psb_r (t : List Char) :
    parseStrBody ('\\' :: 'r' :: t) = consFst (Char.ofNat 13) (parseStrBody t) := by
  rw [parseStrBody.eq_def]; simp

theorem psb_u (h1 h2 h3 h4 : Char) (a b c d : Nat) (t : List Char)
    (e1 : hexVal h1 = some a) (e2 : hexVal h2 = some b)
    (e3 : hexVal h3 = some c) (e4 : hexVal h4 = some d) :
    parseStrBody ('\\' :: 'u' :: h1 :: h2 :: h3 :: h4 :: t)
      = consFst (Char.ofNat (4096 * a + 256 * b + 16 * c + d)) (parseStrBody t) := by
  rw [parseStrBody.eq_def]
  simp [e1, e2, e3, e4]

theorem psb_verbatim (c : Char) (t : List Char) (n1 : c ≠ '"') (n2 : c ≠ '\\')
    (n3 : ¬ c.toNat < 32) :
    parseStrBody (c :: t) = consFst c (parseStrBody t) := by
  rw [parseStrBody.eq_def]
  simp [n1, n2, n3]

theorem hexVal_zero : hexVal '0' = some 0 := by decide

theorem parseStrBody_escChar (c : Char) (t : List Char) :
    parseStrBody (escChar c ++ t) = consFst c (parseStrBody t) := by
  by_cases h1 : c = '"'
  · subst h1
    have he : escChar '"' = ['\\', '"'] := by decide
    rw [he]
    simp only [List.cons_append, List.nil_append]
    exact psb_quote t
  by_cases h2 : c = '\\'
  · subst h2
    have he : escChar '\\' = ['\\', '\\'] := by decide
    rw [he]
    simp only [List.cons_append, List.nil_append]
    exact psb_bs t
  by_cases h3 : c = Char.ofNat 8
  · subst h3
    have he : escChar (Char.ofNat 8) = ['\\', 'b'] := by decide
    rw [he]
    simp only [List.cons_append, List.nil_append]
    exact psb_b t
  by_cases h4 : c = Char.ofNat 9
  · subst h4
    have he : escChar (Char.ofNat 9) = ['\\', 't'] := by decide
    rw [he]
    simp only [List.cons_append, List.nil_append]
    exact psb_t t
  by_cases h5 : c = Char.ofNat 10
  · subst h5
    have he : escChar (Char.ofNat 10) = ['\\', 'n'] := by decide
    rw [he]
    simp only [List.cons_append, List.nil_append]
    exact psb_n t
  by_cases h6 : c = Char.ofNat 12
  · subst h6
    have he : escChar (Char.ofNat 12) = ['\\', 'f'] := by decide
    rw [he]
    simp only [List.cons_append, List.nil_append]
    exact psb_f t
  by_cases h7 : c = Char.ofNat 13
  · subst h7
    have he : escChar (Char.ofNat 13) = ['\\', 'r'] := by decide
    rw [he]
    simp only [List.cons_append, List.nil_append]
    exact psb_r t
  by_cases h8 : c.toNat < 32
  · have he : escChar c
        = ['\\', 'u', '0', '0', hexDig (c.toNat / 16), hexDig (c.toNat % 16)] := by
      simp [escChar, h1, h2, h3, h4, h5, h6, h7, h8]
    have hd : c.toNat / 16 < 16 := by omega
    have hm : c.toNat % 16 < 16 := Nat.mod_lt _ (by norm_num)
    rw [he]
    simp only [List.cons_append, List.nil_append]
    rw [psb_u '0' '0' (hexDig (c.toNat / 16)) (hexDig (c.toNat % 16))
        0 0 (c.toNat / 16) (c.toNat % 16) t hexVal_zero hexVal_zero
        (hexVal_hexDig _ hd) (hexVal_hexDig _ hm)]
    have hvals : (4096 : Nat) * 0 + 256 * 0 + 16 * (c.toNat / 16) + c.toNat % 16 = c.toNat := by
      omega
    rw [hvals, Char.ofNat_toNat]
  · have he : escChar c = [c] := by
      simp [escChar, h1, h2, h3, h4, h5, h6, h7, h8]
    rw [he]
    simp only [List.cons_append, List.nil_append]
    exact psb_verbatim c t h1 h2 h8

theorem parseStrBody_escList (s rest : List Char) :
    parseStrBody (escList s ++ '"' :: rest) = some (s, rest) := by
  induction s with
  | nil =>
    show parseStrBody ('"' :: rest) = some ([], rest)
    exact psb_close rest
  | cons c cs ih =>
    show parseStrBody (escChar c ++ escList cs ++ '"' :: rest) = some (c :: cs, rest)
    rw [List.append_assoc, parseStrBody_escChar, ih, consFst_some]

theorem stripLit_nil (l : List Char) : stripLit [] l = some l := rfl

theorem stripLit_cons_self (c : Char) (ps cs : List Char) :
    stripLit (c :: ps) (c :: cs) = stripLit ps cs := by
  simp [stripLit]

theorem parsePD_stringify (pd : PlatformData) (rest : List Char) :
    parsePD (stringifyPDChars pd ++ rest) = some (pd, rest) := by
  obtain ⟨mn, lt, u, e⟩ := pd
  cases e
  · simp [parsePD, stringifyPDChars, stripLit, parseStrBody_escList, mk_data,
      List.append_assoc]
  · simp [parsePD, stringifyPDChars, stripLit, parseStrBody_escList, mk_data,
      List.append_assoc]

theorem parseMember_memberChars (k : String) (pd : PlatformData) (rest : List Char) :
    parseMember (memberChars k pd ++ rest) = some ((k, pd), rest) := by
  simp [parseMember, memberChars, stripLit, parseStrBody_escList, parsePD_stringify, mk_data,
    List.append_assoc]

theorem memberChars_length_pos (k : String) (pd : PlatformData) :
    1 ≤ (memberChars k pd).length := by
  simp [memberChars]

theorem joinComma_members_length (kvs : List (String × PlatformData)) :
    kvs.length ≤ (joinComma (kvs.map fun kv => memberChars kv.1 kv.2)).length := by
  induction kvs with
  | nil => simp [joinComma]
  | cons kv t ih =>
    cases t with
    | nil =>
      simp only [List.map_cons, List.map_nil, joinComma, List.length_cons, List.length_nil]
      have := memberChars_length_pos kv.1 kv.2
      omega
    | cons kv2 t2 =>
      have h1 := memberChars_length_pos kv.1 kv.2
      simp only [List.map_cons, joinComma, List.length_append, List.length_cons] at ih ⊢
      omega

theorem parseMembersAux_render (kvs : List (String × PlatformData)) :
    ∀ (fuel : Nat) (rest : List Char), kvs ≠ [] → kvs.length ≤ fuel →
    parseMembersAux fuel (joinComma (kvs.map fun kv => memberChars kv.1 kv.2) ++ '\x7d' :: rest)
      = some (kvs, rest) := by
  induction kvs with
  | nil => intro fuel rest h; exact absurd rfl h
  | cons kv t ih =>
    intro fuel rest _ hlen
    match fuel with
    | 0 => simp at hlen
    | Nat.succ f =>
      cases t with
      | nil =>
        simp [parseMembersAux, joinComma, parseMember_memberChars, stripLit]
      | cons kv2 t2 =>
        have hlen2 : (kv2 :: t2).length ≤ f := by
          simp only [List.length_cons] at hlen ⊢
          omega
        have hrec := ih f rest (by simp) hlen2
        simp only [List.map_cons] at hrec
        simp only [List.map_cons, joinComma, List.append_assoc, List.cons_append]
        simp [parseMembersAux, parseMember_memberChars, stripLit, hrec]

theorem parseManUpChars_render (kvs : List (String × PlatformData)) (rest : List Char) :
    parseManUpChars ('\x7b' :: joinComma (kvs.map fun kv => memberChars kv.1 kv.2) ++ '\x7d' :: rest)
      = some (assembleManUp kvs, rest) := by
  cases kvs with
  | nil => simp [parseManUpChars, joinComma, stripLit, assembleManUp]
  | cons kv t =>
    have hhead : ∃ X, joinComma (((kv :: t).map fun kv => memberChars kv.1 kv.2)) = '"' :: X := by
      cases t <;> simp [joinComma, memberChars, List.cons_append]
    obtain ⟨X, hX⟩ := hhead
    have hne : stripLit "\x7d".data (joinComma ((kv :: t).map fun kv => memberChars kv.1 kv.2)
        ++ '\x7d' :: rest) = none := by
      rw [hX]
      simp [stripLit]
    have hlen : (kv :: t).length
        ≤ (joinComma ((kv :: t).map fun kv => memberChars kv.1 kv.2) ++ '\x7d' :: rest).length
          + 1 := by
      have h2 := joinComma_members_length (kv :: t)
      simp only [List.length_append, List.length_cons] at h2 ⊢
      omega
    have hrec := parseMembersAux_render (kv :: t)
      ((joinComma ((kv :: t).map fun kv => memberChars kv.1 kv.2) ++ '\x7d' :: rest).length + 1)
      rest (by simp) hlen
    have hstrip : stripLit "\x7b".data
        ('\x7b' :: joinComma ((kv :: t).map fun kv => memberChars kv.1 kv.2) ++ '\x7d' :: rest)
        = some (joinComma ((kv :: t).map fun kv => memberChars kv.1 kv.2) ++ '\x7d' :: rest) := by
      simp [stripLit]
    unfold parseManUpChars
    rw [hstrip]
    simp only [Option.bind_eq_bind, Option.some_bind]
    rw [hne, hrec]
    rfl

theorem assembleManUp_memberList (m : ManUpData) : assembleManUp (memberList m) = m := by
  obtain ⟨i, a, w⟩ := m
  cases i <;> cases a <;> cases w <;> rfl

/-- The `JSON.stringify`/`JSON.parse` round trip: parsing the rendered
document recovers it, for every document. -/
theorem parseManUp_stringify (m : ManUpData) : parseManUpStr (stringifyManUp m) = some m := by
  have h : parseManUpChars (stringifyManUpChars m) = some (m, []) := by
    have h2 := parseManUpChars_render (memberList m) []
    rw [assembleManUp_memberList] at h2
    exact h2
  simp [parseManUpStr, stringifyManUp, h]

theorem stringifyManUp_ne_null (m : ManUpData) : stringifyManUp m ≠ "null" := by
  intro h
  have h2 := congrArg String.data h
  simp only [stringifyManUp] at h2
  have h3 : stringifyManUpChars m = "null".data := h2
  simp only [stringifyManUpChars] at h3
  simp at h3

/-- Loading after saving recovers the saved document: the stored string
under the namespaced key is `JSON.stringify` of the document and
`JSON.parse` inverts it. -/
theorem metadataFromStorage_after_save (st st2 : StoreMap) (m : ManUpData)
    (h : saveMetadata (some st) m = Except.ok st2) :
    metadataFromStorage (some st2) = Except.ok (some m) := by
  have hst : st2 = storeSet st manupKey (stringifyManUp m) := by
    simp only [saveMetadata] at h
    simpa using h.symm
  subst hst
  simp [metadataFromStorage, storeSet, parseStored, stringifyManUp_ne_null m,
    parseManUp_stringify m]

/-! ## C10: save/load round trip over the fixed namespaced key -/

/-- C10: with a storage collaborator behaving as a key-value map, loading
after a completed save recovers a document structurally equal to the one
saved — `JSON.stringify` and `JSON.parse` are mutually inverse here — and
the single key used by both operations is
`com.nextfaze.ionic-manup.manup`. -/
theorem save_then_load_roundtrip (st st2 : StoreMap) (m : ManUpData)
    (h : saveMetadata (some st) m = Except.ok st2) :
    metadataFromStorage (some st2) = Except.ok (some m)
  ∧ STORAGE_KEY ++ ".manup" = "com.nextfaze.ionic-manup.manup" :=
  ⟨metadataFromStorage_after_save st st2 m h, rfl⟩

/-- Witness for C10 at a concrete store and document. -/
theorem save_then_load_roundtrip_witness :
    metadataFromStorage (some (storeSet emptyStore manupKey (stringifyManUp mRound)))
      = Except.ok (some mRound)
  ∧ STORAGE_KEY ++ ".manup" = "com.nextfaze.ionic-manup.manup" :=
  save_then_load_roundtrip emptyStore _ mRound rfl

/-! ## C5: cached fallback of `metadata()` -/

/-- C5: whenever the remote retrieval fails and a storage collaborator
holding a previously persisted document is configured, `metadata()`
resolves with that document, deserialized from storage, instead of
failing. -/
theorem metadata_falls_back_to_cache (st st2 : StoreMap) (m : ManUpData) (pf : PlatformFlags)
    (v n : String) (tr : Option (String → String → String))
    (h : saveMetadata (some st) m = Except.ok st2) :
    (metadata ⟨none, some st2, pf, v, n, tr⟩).1 = Except.ok (some m) := by
  simp only [metadata]
  exact metadataFromStorage_after_save st st2 m h

/-- Witness for C5 at a concrete store and document. -/
theorem metadata_falls_back_to_cache_witness :
    (metadata ⟨none, some (storeSet emptyStore manupKey (stringifyManUp mCache)),
        iosFlags, "1.0.0", "App", none⟩).1 = Except.ok (some mCache) :=
  metadata_falls_back_to_cache emptyStore _ mCache iosFlags "1.0.0" "App" none rfl

end ManUp
